import Mathlib

/-!
Verification of the symbol-resolution and dispatch layer of the
mcp-server-vscode extension, shallowly embedded in Lean.  Host IDE calls
(workspace-symbol provider, document-symbol provider, open-document) are
passed in as oracle functions; everything else is translated directly from
the TypeScript source.
-/

namespace VSCodeMCP

/-- A 0-based source position (line, character), as in the VS Code API. -/
structure Pos where
  line : Nat
  character : Nat
deriving Repr, DecidableEq

/-- A source range.  The API field named `end` is a Lean keyword, so it is
embedded here as `stop`. -/
structure Range where
  start : Pos
  stop : Pos
deriving Repr, DecidableEq

/-- A `vscode.Location`: a uri plus a range.  Uris are modelled as strings;
`uri.toString()` and `uri.fsPath` are both embedded as the string itself. -/
structure Location where
  uri : String
  range : Range
deriving Repr, DecidableEq

/-- A `vscode.SymbolInformation`, one entry returned by the host's workspace
symbol index.  `kind` is the numeric `vscode.SymbolKind`. -/
structure SymbolInformation where
  name : String
  kind : Nat
  containerName : Option String
  location : Location
deriving Repr, DecidableEq

/-- A `vscode.DocumentSymbol`: one node of a file's hierarchical outline. -/
inductive DocumentSymbol where
  | mk (name : String) (kind : Nat) (range : Range) (children : List DocumentSymbol)

def DocumentSymbol.name : DocumentSymbol → String
  | .mk n _ _ _ => n

def DocumentSymbol.kind : DocumentSymbol → Nat
  | .mk _ k _ _ => k

def DocumentSymbol.range : DocumentSymbol → Range
  | .mk _ _ r _ => r

def DocumentSymbol.children : DocumentSymbol → List DocumentSymbol
  | .mk _ _ _ c => c

mutual

/-- `findSymbolByName` from definition.ts / workspaceSymbols.ts: depth-first
search for the first document symbol with the given exact name, descending
into a node's children before moving to later siblings. -/
def findSymbolByName : List DocumentSymbol → String → Option DocumentSymbol
  | [], _ => none
  | s :: rest, name =>
    match findSymbolInNode s name with
    | some found => some found
    | none => findSymbolByName rest name

/-- One node's step of `findSymbolByName`: the name test, then the recursive
descent into the children. -/
def findSymbolInNode : DocumentSymbol → String → Option DocumentSymbol
  | .mk n k r cs, name =>
    if n = name then some (.mk n k r cs) else findSymbolByName cs name

end

/-- Splitting a character list at every occurrence of a separator, keeping
empty segments — the semantics of JavaScript `String.split` with a
single-character separator. -/
def splitChar (sep : Char) : List Char → List (List Char)
  | [] => [[]]
  | c :: t =>
    if c = sep then [] :: splitChar sep t
    else match splitChar sep t with
      | [] => [[c]]
      | h :: r => (c :: h) :: r

/-- JavaScript `s.split(sep)` for a one-character separator. -/
def jsSplit (s : String) (sep : Char) : List String :=
  (splitChar sep s.toList).map String.mk

/-- JavaScript `String.trim`: drop leading and trailing whitespace. -/
def trimChars (cs : List Char) : List Char :=
  ((cs.dropWhile Char.isWhitespace).reverse.dropWhile Char.isWhitespace).reverse

/-- JavaScript `String.toLowerCase` over the characters of a string. -/
def lowerChars (s : String) : List Char :=
  s.toList.map Char.toLower

/-- JavaScript `String.toUpperCase`. -/
def upperString (s : String) : String :=
  String.mk (s.toList.map Char.toUpper)

/-- Query parsing shared by `findDefinitionBySymbol` and
`findReferencesBySymbol`:
`const parts = symbolName.split(...); primarySymbol = parts[0];
memberSymbol = parts[1]`.  JavaScript `split` on a dot cuts at every dot, and
only index 0 and index 1 are read. -/
def parseSymbolQuery (symbolName : String) : String × Option String :=
  let parts := jsSplit symbolName '.'
  (parts.headD "", parts.get? 1)

/-- `sym.name.replace(...)` with the anchored pattern that strips one
trailing `()` call-signature marker some hosts append to function names. -/
def stripCallMarker (name : String) : String :=
  if ['(', ')'].isSuffixOf name.toList then name.dropRight 2 else name

/-- The exact-match filter of the symbol resolvers: keep candidates whose
name equals the primary symbol after stripping a trailing `()`. -/
def exactMatches (symbols : List SymbolInformation) (primarySymbol : String) :
    List SymbolInformation :=
  symbols.filter (fun sym => stripCallMarker sym.name == primarySymbol)

/-- `matchesToUse = exactMatches.length > 0 ? exactMatches : symbols`:
fall back to all returned candidates when no exact match exists. -/
def matchesToUse (symbols : List SymbolInformation) (primarySymbol : String) :
    List SymbolInformation :=
  let exact := exactMatches symbols primarySymbol
  if exact.length > 0 then exact else symbols

/-- One definition entry pushed by `findDefinitionBySymbol`.  The compact and
the detailed output branches of the source serialize exactly the same fields
(member/symbol name, kind, container, file path, uri, range), so a single
record embeds both shapes. -/
structure DefEntry where
  symbolName : String
  symbolKind : Nat
  container : Option String
  file : String
  uri : String
  range : Range
deriving Repr, DecidableEq

/-- The object returned by `findDefinitionBySymbol`: the queried symbol, an
optional not-found message, the `multipleDefinitions` flag, and the list of
definitions. -/
structure DefResult where
  symbol : String
  message : Option String
  multipleDefinitions : Bool
  definitions : List DefEntry
deriving Repr, DecidableEq

/-- The body of the per-candidate loop of `findDefinitionBySymbol`: the entry
pushed for candidate `sym`, if any.  `docSymbolsOf` is the host's
document-symbol provider queried by uri (`none` embeds a null/undefined
provider result, in which case the candidate is skipped). -/
def definitionEntryFor (docSymbolsOf : String → Option (List DocumentSymbol))
    (primarySymbol : String) (memberSymbol : Option String)
    (sym : SymbolInformation) : Option DefEntry :=
  match memberSymbol with
  | some member =>
    match docSymbolsOf sym.location.uri with
    | none => none
    | some docSymbols =>
      match findSymbolByName docSymbols primarySymbol with
      | none => none
      | some container =>
        match findSymbolByName container.children member with
        | none => none
        | some m =>
          some { symbolName := m.name, symbolKind := m.kind,
                 container := some container.name,
                 file := sym.location.uri, uri := sym.location.uri,
                 range := m.range }
  | none =>
    some { symbolName := sym.name, symbolKind := sym.kind,
           container := sym.containerName,
           file := sym.location.uri, uri := sym.location.uri,
           range := sym.location.range }

/-- `findDefinitionBySymbol` from definition.ts, with the host's
workspace-symbol provider and document-symbol provider as oracles. -/
def findDefinitionBySymbol (workspaceSymbolsOf : String → List SymbolInformation)
    (docSymbolsOf : String → Option (List DocumentSymbol))
    (symbolName : String) : DefResult :=
  let parsed := parseSymbolQuery symbolName
  let primarySymbol := parsed.1
  let memberSymbol := parsed.2
  let symbols := workspaceSymbolsOf primarySymbol
  if symbols.isEmpty then
    { symbol := symbolName,
      message := some ("Symbol \x27" ++ symbolName ++ "\x27 not found in workspace"),
      multipleDefinitions := false, definitions := [] }
  else
    let matched := matchesToUse symbols primarySymbol
    let allDefinitions :=
      matched.filterMap (definitionEntryFor docSymbolsOf primarySymbol memberSymbol)
    if allDefinitions.isEmpty then
      { symbol := symbolName,
        message := some (match memberSymbol with
          | some member =>
              "Member \x27" ++ member ++ "\x27 not found in \x27" ++ primarySymbol ++ "\x27"
          | none => "No definition found for symbol \x27" ++ symbolName ++ "\x27"),
        multipleDefinitions := false, definitions := [] }
    else if allDefinitions.length = 1 then
      { symbol := symbolName, message := none, multipleDefinitions := false,
        definitions := allDefinitions }
    else
      { symbol := symbolName, message := none, multipleDefinitions := true,
        definitions := allDefinitions }

/-! Embedding of src/tools/utils/symbolProvider.ts: the process-wide language
readiness state and `searchWorkspaceSymbols` with its cold-start retry loop. -/

/-- The module-level mutable state of symbolProvider.ts:
`initializedLanguages` (a set, embedded as a duplicate-free insertion list)
and the `hasCheckedLanguageServers` flag. -/
structure SymbolProviderState where
  initializedLanguages : List String
  hasCheckedLanguageServers : Bool
deriving Repr, DecidableEq

/-- `Set.add`: idempotent insertion into the language set. -/
def addLanguage (langs : List String) (l : String) : List String :=
  if l ∈ langs then langs else langs ++ [l]

/-- Fold of `Set.add` over the languages of a symbol batch.  `languageOf`
embeds `openTextDocument(symbol.location.uri).languageId`; `none` embeds an
open-document failure, in which case that symbol is skipped. -/
def markLanguages (languageOf : String → Option String)
    (langs : List String) (symbols : List SymbolInformation) : List String :=
  symbols.foldl (fun acc sym =>
    match languageOf sym.location.uri with
    | some l => addLanguage acc l
    | none => acc) langs

/-- The progressive retry delay table of searchWorkspaceSymbols (ms). -/
def retryDelays : List Nat := [1000, 3000, 10000]

/-- The retry loop of `searchWorkspaceSymbols` (lines 43-54): up to `fuel`
iterations starting at index `attempt`, each awaiting `retryDelays[attempt]`
and re-querying; stops at the first non-empty result.  `provider k` embeds
the workspace-symbol provider's answer to the (k+1)-th call for this query
(call 0 being the initial one).  Returns the delays awaited and the final
symbol list. -/
def searchRetryLoop (provider : Nat → List SymbolInformation) :
    Nat → Nat → List Nat × List SymbolInformation
  | 0, _ => ([], [])
  | fuel + 1, attempt =>
    let d := retryDelays.getD attempt 0
    let symbols := provider (attempt + 1)
    if symbols.isEmpty then
      let rest := searchRetryLoop provider fuel (attempt + 1)
      (d :: rest.1, rest.2)
    else ([d], symbols)

/-- The outcome of one `searchWorkspaceSymbols` call: the delays awaited (in
order), the returned symbols, and the updated module state. -/
structure SearchOutcome where
  delays : List Nat
  symbols : List SymbolInformation
  state : SymbolProviderState
deriving Repr, DecidableEq

/-- `searchWorkspaceSymbols` from symbolProvider.ts.  `ensure` embeds the
observable effect of `ensureLanguageServersReady` (the delays it awaits and
the languages it marks; its internals are host-driven warmup queries), run
once per process when `hasCheckedLanguageServers` is still false and
`maxRetries > 0`.  After the initial query, an empty result with
`maxRetries > 0` enters the retry loop unconditionally — the readiness set is
not consulted there. -/
def searchWorkspaceSymbols (ensure : List Nat × List String)
    (provider : Nat → List SymbolInformation)
    (languageOf : String → Option String)
    (st : SymbolProviderState) (maxRetries : Nat := 3) : SearchOutcome :=
  let checked := ¬ st.hasCheckedLanguageServers ∧ maxRetries > 0
  let preDelays := if checked then ensure.1 else []
  let st1 : SymbolProviderState :=
    if checked then
      { initializedLanguages := ensure.2.foldl addLanguage st.initializedLanguages,
        hasCheckedLanguageServers := true }
    else st
  let symbols0 := provider 0
  let looped :=
    if symbols0.isEmpty ∧ maxRetries > 0 then
      searchRetryLoop provider (min maxRetries retryDelays.length) 0
    else ([], symbols0)
  let finalLangs :=
    if looped.2.isEmpty then st1.initializedLanguages
    else markLanguages languageOf st1.initializedLanguages looped.2
  { delays := preDelays ++ looped.1,
    symbols := looped.2,
    state := { st1 with initializedLanguages := finalLangs } }

/-! Embedding of the `setBreakpoint` / `toggleBreakpoint` branch of the debug
tool handler (debug.ts). -/

/-- The two breakpoint-placing actions of the debug tool. -/
inductive BpAction where
  | setBreakpoint
  | toggleBreakpoint
deriving Repr, DecidableEq

/-- A `vscode.SourceBreakpoint`, reduced to the fields the handler reads:
its location's uri and start line. -/
structure Breakpoint where
  uri : String
  line : Nat
deriving Repr, DecidableEq

/-- The payloads the breakpoint branch can return (compact shape). -/
inductive BreakpointOutcome where
  | notFound (suggestions : List String)
  | multipleMatches (withMatches : List SymbolInformation)
  | removed (file : String) (line : Nat)
  | added (file : String) (line : Nat)
  | bpSet (file : String) (line : Nat)
  | fileNotFound
  | missingLocation
deriving Repr, DecidableEq

/-- JavaScript `hay.includes(needle)`: contiguous-substring test. -/
def containsSub (needle : List Char) : List Char → Bool
  | [] => needle.isPrefixOf []
  | c :: t => needle.isPrefixOf (c :: t) || containsSub needle t

/-- The suggestion computation of the not-found path: filter a broad
workspace search for names containing the query as a case-insensitive
substring, cap at 5, and keep the names (compact shape). -/
def debugSuggestions (allSymbols : List SymbolInformation) (symbol : String) :
    List String :=
  ((allSymbols.filter (fun s =>
      containsSub (lowerChars symbol) (lowerChars s.name))).take 5).map
    (fun s => s.name)

/-- The tail of the breakpoint branch once a target uri/line is known: toggle
removes an existing breakpoint at that location, otherwise a new breakpoint
is created (`added` for toggle, `set` for setBreakpoint).  Returns the
payload and the breakpoint list after the call. -/
def applyBreakpointAt (action : BpAction) (targetUri : String) (targetLine : Nat)
    (existing : List Breakpoint) : BreakpointOutcome × List Breakpoint :=
  match action, existing.find? (fun bp => bp.uri == targetUri && bp.line == targetLine) with
  | .toggleBreakpoint, some bp =>
    (.removed targetUri targetLine, existing.erase bp)
  | .toggleBreakpoint, none =>
    (.added targetUri targetLine, existing ++ [⟨targetUri, targetLine⟩])
  | .setBreakpoint, _ =>
    (.bpSet targetUri targetLine, existing ++ [⟨targetUri, targetLine⟩])

/-- The file/line fallback of the breakpoint branch: `findFiles` results are
passed in as `filesFound`; the first hit is used. -/
def breakpointByFile (action : BpAction) (fileArg : Option (String × Nat))
    (filesFound : List String) (existing : List Breakpoint) :
    BreakpointOutcome × List Breakpoint :=
  match fileArg with
  | some (_, line) =>
    match filesFound with
    | [] => (.fileNotFound, existing)
    | f :: _ => applyBreakpointAt action f line existing
  | none => (.missingLocation, existing)

/-- The `setBreakpoint`/`toggleBreakpoint` branch of the debug tool handler.
`symbols` embeds the result of `findSymbolInWorkspace(symbol)`; `allSymbols`
the broad workspace search backing suggestions.  With more than one
candidate, `setBreakpoint` returns a disambiguation payload, while
`toggleBreakpoint` falls through and uses the first match (`symbols[0]`).
Condition / hit-count / log-message arguments only decorate the created
breakpoint and are not embedded. -/
def debugBreakpointAction (action : BpAction) (symbolArg : Option String)
    (fileArg : Option (String × Nat)) (symbols allSymbols : List SymbolInformation)
    (filesFound : List String) (existing : List Breakpoint) :
    BreakpointOutcome × List Breakpoint :=
  match symbolArg with
  | some symbol =>
    if symbol.isEmpty then breakpointByFile action fileArg filesFound existing
    else
      match symbols with
      | [] => (.notFound (debugSuggestions allSymbols symbol), existing)
      | m :: rest =>
        if rest.length + 1 > 1 ∧ action = .setBreakpoint then
          (.multipleMatches (m :: rest), existing)
        else
          applyBreakpointAt action m.location.uri m.location.range.start.line existing
  | none => breakpointByFile action fileArg filesFound existing

/-! Embedding of the HTTP bridge's `POST /tool` dispatch (mcp/http-bridge.ts). -/

/-- A JSON value, the subset the bridge manipulates. -/
inductive JVal where
  | str (s : String)
  | num (n : Int)
  | boolean (b : Bool)
  | obj (fields : List (String × JVal))
  | arr (elems : List JVal)
  | null

/-- One property of a tool's input schema: declared primitive type and
optional enum constraint. -/
structure PropSchema where
  name : String
  declType : String
  enumVals : Option (List String)

/-- A tool's input schema: declared properties and required field names. -/
structure InputSchema where
  properties : List PropSchema
  required : List String

/-- Does a JSON value match a declared primitive type name? -/
def typeMatches : String → JVal → Bool
  | "string", .str _ => true
  | "number", .num _ => true
  | "boolean", .boolean _ => true
  | "object", .obj _ => true
  | _, _ => false

/-- Field lookup in a JSON object, first binding wins. -/
def lookupArg (args : List (String × JVal)) (k : String) : Option JVal :=
  (args.find? (fun kv => kv.1 == k)).map (fun kv => kv.2)

/-- Modelled from the spec: `validateToolArguments` lives in
src/mcp/validate.ts, which is not in the source tree (only its caller is).
Per the spec the dispatcher "validates `args` against `inputSchema` (required
fields present, enum values valid, types matching declared primitive types)".
Returns `none` when valid and `some message` on the first violation. -/
def validateToolArguments (args : List (String × JVal)) (schema : InputSchema) :
    Option String :=
  match schema.required.find? (fun r => (lookupArg args r).isNone) with
  | some r => some ("Missing required field: " ++ r)
  | none =>
    match schema.properties.find? (fun p =>
        match lookupArg args p.name with
        | none => false
        | some v =>
          if ¬ typeMatches p.declType v then true
          else match p.enumVals, v with
            | some es, .str s => ¬ es.contains s
            | _, _ => false) with
    | some p => some ("Invalid value for field: " ++ p.name)
    | none => none

/-- A registered tool as the bridge sees it: name, schema, and handler.  A
handler that throws is embedded as `Except.error`. -/
structure ToolModel where
  name : String
  inputSchema : InputSchema
  handler : List (String × JVal) → Except String JVal

/-- A parsed `POST /tool` body `{tool, args}`.  A missing or non-string
`tool` is embedded as `none` (it can match no registered name). -/
structure PostBody where
  tool : Option String
  args : Option (List (String × JVal))

/-- A response body: `{result}` on success, `{error}` otherwise. -/
inductive RespBody where
  | result (v : JVal)
  | error (msg : String)

/-- An HTTP response: status code and JSON body. -/
structure HttpResponse where
  status : Nat
  body : RespBody

/-- The `POST /tool` request flow of HTTPBridge.start.  `body` embeds the
result of `JSON.parse` on the raw body (`Except.error` = parse throw, caught
by the surrounding try).  The returned flag records whether the tool handler
was invoked. -/
def handlePostTool (tools : List ToolModel) (body : Except String PostBody) :
    HttpResponse × Bool :=
  match body with
  | .error e => (⟨500, .error e⟩, false)
  | .ok pb =>
    match tools.find? (fun t => some t.name == pb.tool) with
    | none =>
      (⟨404, .error ("Unknown tool: " ++ pb.tool.getD "undefined")⟩, false)
    | some t =>
      match validateToolArguments (pb.args.getD []) t.inputSchema with
      | some err => (⟨400, .error err⟩, false)
      | none =>
        match t.handler (pb.args.getD []) with
        | .ok r => (⟨200, .result r⟩, true)
        | .error e => (⟨500, .error e⟩, true)

/-! Embedding of the position-based span normalization (definition.ts
`findDefinitionByPosition`, workspaceSymbols.ts `findReferencesByPosition`):
the compact and detailed output shapes. -/

/-- A raw definition-provider result: the host returns either a `Location`
(`uri`/`range`) or a `LocationLink` (`targetUri`/`targetRange`). -/
inductive DefinitionLoc where
  | location (uri : String) (range : Range)
  | locationLink (targetUri : String) (targetRange : Range)
deriving Repr, DecidableEq

/-- A compact span: the positional tuple
`[uri, startLine, startChar, endLine, endChar]`. -/
def CompactSpan := String × Nat × Nat × Nat × Nat
deriving Repr, DecidableEq

/-- A detailed span: the fully-labeled nested object. -/
structure DetailedSpan where
  uri : String
  range : Range
deriving Repr, DecidableEq

/-- The compact branch of the dual-shape normalization in
`findDefinitionByPosition`. -/
def compactOfDefinitionLoc : DefinitionLoc → CompactSpan
  | .locationLink u r =>
    (u, r.start.line, r.start.character, r.stop.line, r.stop.character)
  | .location u r =>
    (u, r.start.line, r.start.character, r.stop.line, r.stop.character)

/-- The detailed branch of the dual-shape normalization in
`findDefinitionByPosition`. -/
def detailedOfDefinitionLoc : DefinitionLoc → DetailedSpan
  | .locationLink u r => ⟨u, r⟩
  | .location u r => ⟨u, r⟩

/-- `findDefinitionByPosition` with `format = compact`, applied to the
provider's raw results.  (The source's `.filter(Boolean)` only drops the
unreachable neither-shape branch, which the sum type rules out.) -/
def findDefinitionByPositionCompact (defs : List DefinitionLoc) :
    List CompactSpan :=
  defs.map compactOfDefinitionLoc

/-- `findDefinitionByPosition` with `format = detailed`. -/
def findDefinitionByPositionDetailed (defs : List DefinitionLoc) :
    List DetailedSpan :=
  defs.map detailedOfDefinitionLoc

/-- Declaration filtering in `findReferencesByPosition`: when
`includeDeclaration` is false and the definition lookup returned results,
drop references whose uri and range equal some definition's. -/
def filterDeclarations (references definitions : List Location)
    (includeDeclaration : Bool) : List Location :=
  if includeDeclaration then references
  else if definitions.isEmpty then references
  else references.filter (fun ref =>
    ¬ definitions.any (fun d => d.uri == ref.uri && d.range == ref.range))

/-- The compact mapping of `findReferencesByPosition` over the (already
declaration-filtered) references. -/
def findReferencesByPositionCompact (refs : List Location) : List CompactSpan :=
  refs.map (fun r =>
    (r.uri, r.range.start.line, r.range.start.character,
     r.range.stop.line, r.range.stop.character))

/-- The detailed mapping of `findReferencesByPosition`. -/
def findReferencesByPositionDetailed (refs : List Location) : List DetailedSpan :=
  refs.map (fun r => ⟨r.uri, r.range⟩)

/-- Decoding a detailed span into the compact positional tuple; the common
facts both shapes must agree on. -/
def spanTuple (d : DetailedSpan) : CompactSpan :=
  (d.uri, d.range.start.line, d.range.start.character,
   d.range.stop.line, d.range.stop.character)

/-! Embedding of the `debug_getOutput` tool (tools/debug/getOutput.ts) over
the session-keyed output buffer. -/

/-- A Debug Output Entry: timestamp, owning session id, category, and text. -/
structure OutputEntry where
  timestamp : Nat
  sessionId : String
  category : String
  output : String
deriving Repr, DecidableEq

/-- An active `vscode.DebugSession`, reduced to the fields the handler
reads. -/
structure DebugSession where
  id : String
  name : String
  sessionType : String
deriving Repr, DecidableEq

/-- Modelled from the spec: `debugOutputTracker.getOutputs` lives in
src/services/debugOutputTracker.ts, which is not in the source tree (only its
callers are).  Per the spec the buffer is "queried later by session id with
optional category/text filter and a result-count limit".  `entries` is the
process-wide buffer in insertion order. -/
def getOutputs (entries : List OutputEntry) (sessionId : String)
    (category : Option String) (limit : Nat) (textFilter : Option String) :
    List OutputEntry :=
  ((((entries.filter (fun e => e.sessionId == sessionId)).filter (fun e =>
      match category with
      | none => true
      | some c => e.category == c)).filter (fun e =>
      match textFilter with
      | none => true
      | some f => containsSub f.toList e.output.toList)).take limit)

/-- The result shapes of the `debug_getOutput` handler: an error payload, or
an output list with its total and the session name (compact shape: each
output is the `[category, text]` pair with the text trimmed). -/
inductive GetOutputResult where
  | err (code : String)
  | ok (outputs : List (String × String)) (total : Nat) (session : String)
deriving Repr, DecidableEq

/-- The `debug_getOutput` handler.  `session` embeds
`vscode.debug.activeDebugSession` (`none` = no active session). -/
def debugGetOutput (session : Option DebugSession) (entries : List OutputEntry)
    (category : Option String := none) (limit : Nat := 100)
    (textFilter : Option String := none) : GetOutputResult :=
  match session with
  | none => .err "no_session"
  | some s =>
    let outputs := getOutputs entries s.id category limit textFilter
    .ok (outputs.map (fun o => (o.category, String.mk (trimChars o.output.toList))))
      outputs.length s.name

/-! Embedding of `tryBasicSymbolExtraction` (tools/refactor/index.ts): the
line-oriented fallback symbol scanner for Python files. -/

/-- JavaScript regex `\w`: ASCII letters, digits, underscore. -/
def isWordChar (c : Char) : Bool :=
  c.isAlpha || c.isDigit || c == '_'

/-- Scan for an adjacent `)` `:` pair, the condition under which the lazy
optional parenthesized group of the class pattern can close. -/
def hasCloseParenColon : List Char → Bool
  | [] => false
  | ')' :: ':' :: _ => true
  | _ :: t => hasCloseParenColon t

/-- The class pattern of the scanner (`class`, whitespace, a word, an
optional parenthesized base list, then a colon), applied to the trimmed
line; returns the captured class name. -/
def parseClassDef (cs : List Char) : Option String :=
  match cs with
  | 'c' :: 'l' :: 'a' :: 's' :: 's' :: rest =>
    let sp := rest.takeWhile Char.isWhitespace
    let rest1 := rest.dropWhile Char.isWhitespace
    if sp.isEmpty then none
    else
      let name := rest1.takeWhile isWordChar
      let rest2 := rest1.dropWhile isWordChar
      if name.isEmpty then none
      else match rest2 with
        | ':' :: _ => some (String.mk name)
        | '(' :: rest3 => if hasCloseParenColon rest3 then some (String.mk name) else none
        | _ => none
  | _ => none

/-- The function pattern of the scanner (`def`, whitespace, a word, optional
whitespace, an opening parenthesis), applied to the trimmed line; returns
the captured function name. -/
def parseFuncDef (cs : List Char) : Option String :=
  match cs with
  | 'd' :: 'e' :: 'f' :: rest =>
    let sp := rest.takeWhile Char.isWhitespace
    let rest1 := rest.dropWhile Char.isWhitespace
    if sp.isEmpty then none
    else
      let name := rest1.takeWhile isWordChar
      let rest2 := rest1.dropWhile isWordChar
      if name.isEmpty then none
      else match rest2.dropWhile Char.isWhitespace with
        | '(' :: _ => some (String.mk name)
        | _ => none
  | _ => none

/-- The assignment pattern of the scanner (a word, optional whitespace, `=`,
optional whitespace, a non-empty right-hand side), applied to the trimmed
line; returns the captured variable name. -/
def parseAssignment (cs : List Char) : Option String :=
  let name := cs.takeWhile isWordChar
  let rest := cs.dropWhile isWordChar
  if name.isEmpty then none
  else match rest.dropWhile Char.isWhitespace with
    | '=' :: rest2 =>
      if (rest2.dropWhile Char.isWhitespace).isEmpty then none
      else some (String.mk name)
    | _ => none

/-- One symbol emitted by the fallback scanner. -/
structure BasicSymbol where
  name : String
  kind : String
  fullName : String
  range : Range
deriving Repr, DecidableEq

/-- The per-line body of the scanner loop: class match (any indentation),
function match (kept when top-level or indented at most 4), and top-level
UPPER_CASE assignment match, in the source's push order.  `indent` is
`line.length - line.trim().length`. -/
def extractLineSymbols (i : Nat) (line : String) : List BasicSymbol :=
  let trimmedLine := trimChars line.toList
  if trimmedLine.isEmpty || trimmedLine.take 1 == ['#'] then []
  else
    let indent := line.length - trimmedLine.length
    let isTopLevel := indent == 0
    let classSyms := match parseClassDef trimmedLine with
      | some name =>
        [⟨name, "Class", name, ⟨⟨i, indent⟩, ⟨i, line.length⟩⟩⟩]
      | none => []
    let funcSyms := match parseFuncDef trimmedLine with
      | some name =>
        if isTopLevel || indent ≤ 4 then
          [⟨name, if isTopLevel then "Function" else "Method", name,
            ⟨⟨i, indent⟩, ⟨i, line.length⟩⟩⟩]
        else []
      | none => []
    let varSyms :=
      if isTopLevel then
        match parseAssignment trimmedLine with
        | some varName =>
          if varName == upperString varName && varName.length > 1 then
            [⟨varName, "Variable", varName, ⟨⟨i, 0⟩, ⟨i, line.length⟩⟩⟩]
          else []
        | none => []
      else []
    classSyms ++ funcSyms ++ varSyms

/-- `tryBasicSymbolExtraction`: only Python documents are scanned; the text
is split into lines and scanned line by line; `none` embeds the null result
(no symbols, or unsupported language). -/
def tryBasicSymbolExtraction (languageId text : String) :
    Option (List BasicSymbol) :=
  if languageId == "python" then
    let lines := jsSplit text '\n'
    let symbols := lines.enum.flatMap (fun p => extractLineSymbols p.1 p.2)
    if symbols.length > 0 then some symbols else none
  else none

/-! Concrete fixtures: small workspaces and tools used to evaluate the
theorems below on closed inputs. -/

/-- A workspace candidate named `A` in file `f.ts`. -/
def symA : SymbolInformation := ⟨"A", 4, none, ⟨"f.ts", ⟨⟨0, 0⟩, ⟨9, 1⟩⟩⟩⟩

/-- Outline node `C`, grandchild of `A`. -/
def docC2C : DocumentSymbol := .mk "C" 5 ⟨⟨3, 4⟩, ⟨3, 9⟩⟩ []

/-- Outline node `B`, child of `A`, with child `C`. -/
def docC2B : DocumentSymbol := .mk "B" 5 ⟨⟨2, 2⟩, ⟨4, 3⟩⟩ [docC2C]

/-- Outline node `A` with child `B`. -/
def docC2A : DocumentSymbol := .mk "A" 4 ⟨⟨0, 0⟩, ⟨9, 1⟩⟩ [docC2B]

/-- Workspace-symbol oracle: the container `A` exists. -/
def wsC2 : String → List SymbolInformation := fun q =>
  if q = "A" then [symA] else []

/-- Document-symbol oracle: `f.ts` has the outline `A ⊃ B ⊃ C`. -/
def dsC2 : String → Option (List DocumentSymbol) := fun u =>
  if u = "f.ts" then some [docC2A] else none

/-- A function-like candidate whose name carries a `()` marker. -/
def symFooParens : SymbolInformation :=
  ⟨"foo()", 11, none, ⟨"a.ts", ⟨⟨3, 0⟩, ⟨5, 1⟩⟩⟩⟩

/-- An unrelated candidate. -/
def symBar : SymbolInformation := ⟨"bar", 11, none, ⟨"b.ts", ⟨⟨8, 0⟩, ⟨9, 1⟩⟩⟩⟩

/-- One of two same-named candidates in different files. -/
def symFooA : SymbolInformation := ⟨"foo", 11, none, ⟨"a.ts", ⟨⟨1, 0⟩, ⟨2, 0⟩⟩⟩⟩

/-- The other same-named candidate. -/
def symFooB : SymbolInformation := ⟨"foo", 11, none, ⟨"b.ts", ⟨⟨5, 0⟩, ⟨6, 0⟩⟩⟩⟩

/-- A workspace symbol whose name contains `Foo` case-insensitively. -/
def symFooBar : SymbolInformation :=
  ⟨"FooBar", 4, none, ⟨"c.ts", ⟨⟨0, 0⟩, ⟨1, 0⟩⟩⟩⟩

/-- A registered tool requiring a numeric field `x`. -/
def toolEcho : ToolModel :=
  ⟨"echo", ⟨[⟨"x", "number", none⟩], ["x"]⟩, fun args => .ok (.obj args)⟩

/-- The `Variable` symbol the fallback scanner emits for `MAX = 9`. -/
def varMAX : BasicSymbol := ⟨"MAX", "Variable", "MAX", ⟨⟨0, 0⟩, ⟨0, 7⟩⟩⟩

/-- The `Function` symbol the fallback scanner emits for `def f(x):`. -/
def funF : BasicSymbol := ⟨"f", "Function", "f", ⟨⟨1, 0⟩, ⟨1, 9⟩⟩⟩

/-! Theorems. -/

/-- Claim C1, counterexample: with a language already marked ready
(`initializedLanguages = [typescript]`, server check done) and a query whose
result stays empty, `searchWorkspaceSymbols` still awaits the full escalating
delay sequence 1s, 3s, 10s before returning — the retry loop never consults
the readiness state. -/
theorem c1_counterexample :
    (searchWorkspaceSymbols ([], []) (fun _ => []) (fun _ => none)
        ⟨["typescript"], true⟩ 3).delays = [1000, 3000, 10000]
    ∧ (searchWorkspaceSymbols ([], []) (fun _ => []) (fun _ => none)
        ⟨["typescript"], true⟩ 3).symbols = []
    ∧ "typescript" ∈
        (⟨["typescript"], true⟩ : SymbolProviderState).initializedLanguages := by
  refine ⟨by decide, by decide, by decide⟩

/-- Claim C1, amended: whenever every provider attempt returns an empty
result and the one-time server check has already happened,
`searchWorkspaceSymbols` awaits exactly the escalating delay table truncated
to `maxRetries` — independent of the readiness set, which is also left
untouched. -/
theorem c1_full_retry_regardless_of_readiness
    (ensure : List Nat × List String) (provider : Nat → List SymbolInformation)
    (languageOf : String → Option String) (st : SymbolProviderState)
    (maxRetries : Nat) (hp : ∀ k, provider k = [])
    (hc : st.hasCheckedLanguageServers = true) :
    (searchWorkspaceSymbols ensure provider languageOf st maxRetries).delays
        = retryDelays.take (min maxRetries retryDelays.length)
    ∧ (searchWorkspaceSymbols ensure provider languageOf st maxRetries).symbols = []
    ∧ (searchWorkspaceSymbols ensure provider languageOf st maxRetries).state = st := by
  obtain ⟨langs, checked⟩ := st
  simp only [SymbolProviderState.hasCheckedLanguageServers] at hc
  subst hc
  obtain _ | _ | _ | m := maxRetries
  · simp [searchWorkspaceSymbols, hp, searchRetryLoop, retryDelays]
  · simp [searchWorkspaceSymbols, hp, searchRetryLoop, retryDelays]
  · simp [searchWorkspaceSymbols, hp, searchRetryLoop, retryDelays]
  · have hmin : min (m + 3) retryDelays.length = 3 := by
      simp only [retryDelays, List.length_cons, List.length_nil]
      omega
    simp [searchWorkspaceSymbols, hp, searchRetryLoop, hmin, retryDelays]

/-- Claim C1, witness: the amended statement evaluated at the ready state
with three retries. -/
theorem c1_witness :
    (searchWorkspaceSymbols ([], []) (fun _ => []) (fun _ => none)
        ⟨["typescript"], true⟩ 3).delays
        = retryDelays.take (min 3 retryDelays.length)
    ∧ (searchWorkspaceSymbols ([], []) (fun _ => []) (fun _ => none)
        ⟨["typescript"], true⟩ 3).symbols = []
    ∧ (searchWorkspaceSymbols ([], []) (fun _ => []) (fun _ => none)
        ⟨["typescript"], true⟩ 3).state = ⟨["typescript"], true⟩ :=
  c1_full_retry_regardless_of_readiness ([], []) (fun _ => []) (fun _ => none)
    ⟨["typescript"], true⟩ 3 (fun _ => rfl) rfl

/-- Claim C2, counterexample: for `A.B.C` the member kept is `B`, not the
claimed literal `B.C`; and in a workspace where `A` has a child `B`, the
truncated member does match, so resolution returns a definition rather than
failing to match. -/
theorem c2_counterexample :
    (parseSymbolQuery "A.B.C").2 = some "B"
    ∧ (parseSymbolQuery "A.B.C").2 ≠ some "B.C"
    ∧ (findDefinitionBySymbol wsC2 dsC2 "A.B.C").definitions ≠ [] := by
  refine ⟨by decide, by decide, by decide⟩

/-- Claim C2, amended: resolution uses only the first two dot-separated
segments of a query; any further segments are dropped, so two queries
agreeing on those two segments resolve to the same definitions and the same
`multipleDefinitions` flag. -/
theorem c2_first_two_segments (ws : String → List SymbolInformation)
    (ds : String → Option (List DocumentSymbol)) (q1 q2 : String)
    (hp : (jsSplit q1 '.').headD "" = (jsSplit q2 '.').headD "")
    (hm : (jsSplit q1 '.').get? 1 = (jsSplit q2 '.').get? 1) :
    (findDefinitionBySymbol ws ds q1).definitions
        = (findDefinitionBySymbol ws ds q2).definitions
    ∧ (findDefinitionBySymbol ws ds q1).multipleDefinitions
        = (findDefinitionBySymbol ws ds q2).multipleDefinitions := by
  have h : parseSymbolQuery q1 = parseSymbolQuery q2 := by
    simp only [parseSymbolQuery]
    rw [hp, hm]
  simp only [findDefinitionBySymbol]
  rw [h]
  refine ⟨?_, ?_⟩ <;> (split <;> (try rfl) <;> split <;> (try rfl) <;> split <;> rfl)

/-- Claim C2, witness: `A.B.C` resolves exactly as its truncation `A.B`. -/
theorem c2_witness :
    (findDefinitionBySymbol wsC2 dsC2 "A.B.C").definitions
        = (findDefinitionBySymbol wsC2 dsC2 "A.B").definitions
    ∧ (findDefinitionBySymbol wsC2 dsC2 "A.B.C").multipleDefinitions
        = (findDefinitionBySymbol wsC2 dsC2 "A.B").multipleDefinitions :=
  c2_first_two_segments wsC2 dsC2 "A.B.C" "A.B" (by decide) (by decide)

/-- Claim C3: on a non-empty candidate list, the kept exact matches are
precisely the candidates whose name, after stripping a trailing `()`, equals
the primary symbol; when no exact match exists the resolver proceeds with all
candidates, and in either case it proceeds with a non-empty list. -/
theorem c3_exact_first_fallback_all (symbols : List SymbolInformation)
    (primary : String) (h : symbols ≠ []) :
    (∀ s, s ∈ exactMatches symbols primary ↔
        s ∈ symbols ∧ stripCallMarker s.name = primary)
    ∧ (exactMatches symbols primary ≠ [] →
        matchesToUse symbols primary = exactMatches symbols primary)
    ∧ (exactMatches symbols primary = [] → matchesToUse symbols primary = symbols)
    ∧ matchesToUse symbols primary ≠ [] := by
  refine ⟨?_, ?_, ?_, ?_⟩
  · intro s
    simp [exactMatches, List.mem_filter]
  · intro hne
    simp [matchesToUse, List.length_pos.mpr hne]
  · intro he
    simp [matchesToUse, he]
  · by_cases he : exactMatches symbols primary = []
    · simpa [matchesToUse, he] using h
    · simpa [matchesToUse, List.length_pos.mpr he] using he

/-- Claim C3, witness: `foo()` is an exact match for `foo`, and the filtered
set used is non-empty. -/
theorem c3_witness :
    (symFooParens ∈ exactMatches [symFooParens, symBar] "foo"
      ↔ symFooParens ∈ [symFooParens, symBar]
        ∧ stripCallMarker symFooParens.name = "foo")
    ∧ matchesToUse [symFooParens, symBar] "foo" ≠ [] :=
  ⟨(c3_exact_first_fallback_all [symFooParens, symBar] "foo" (by decide)).1
      symFooParens,
   (c3_exact_first_fallback_all [symFooParens, symBar] "foo" (by decide)).2.2.2⟩

/-- A single candidate survives the exact-match filter stage whether or not
it matches exactly (the fallback keeps everything). -/
theorem matchesToUse_singleton (sym : SymbolInformation) (p : String) :
    matchesToUse [sym] p = [sym] := by
  unfold matchesToUse exactMatches
  cases h : (stripCallMarker sym.name == p) <;> simp [List.filter, h]

/-- Claim C4: when the workspace yields a candidate for `Container` whose
file outline contains a `Container` node with a (recursively found) child
`Member`, the returned definition entry carries `Member`'s own range — not
`Container`'s. -/
theorem c4_member_range (ws : String → List SymbolInformation)
    (ds : String → Option (List DocumentSymbol)) (q primary member : String)
    (sym : SymbolInformation) (outline : List DocumentSymbol)
    (container m : DocumentSymbol)
    (hq : parseSymbolQuery q = (primary, some member))
    (hws : ws primary = [sym])
    (hds : ds sym.location.uri = some outline)
    (hc : findSymbolByName outline primary = some container)
    (hm : findSymbolByName container.children member = some m) :
    (findDefinitionBySymbol ws ds q).definitions
      = [⟨m.name, m.kind, some container.name,
          sym.location.uri, sym.location.uri, m.range⟩]
    ∧ (m.range ≠ container.range →
        (findDefinitionBySymbol ws ds q).definitions.map DefEntry.range
          ≠ [container.range]) := by
  have hmain : (findDefinitionBySymbol ws ds q).definitions
      = [⟨m.name, m.kind, some container.name,
          sym.location.uri, sym.location.uri, m.range⟩] := by
    simp only [findDefinitionBySymbol, hq, hws, matchesToUse_singleton]
    simp [definitionEntryFor, hds, hc, hm]
  refine ⟨hmain, ?_⟩
  intro hne heq
  rw [hmain] at heq
  simp at heq
  exact hne heq

/-- Claim C4, witness: resolving `A.B` in the fixture workspace returns the
entry at `B`'s range, which differs from `A`'s range. -/
theorem c4_witness :
    (findDefinitionBySymbol wsC2 dsC2 "A.B").definitions
      = [⟨docC2B.name, docC2B.kind, some docC2A.name,
          symA.location.uri, symA.location.uri, docC2B.range⟩]
    ∧ (docC2B.range ≠ docC2A.range →
        (findDefinitionBySymbol wsC2 dsC2 "A.B").definitions.map DefEntry.range
          ≠ [docC2A.range]) :=
  c4_member_range wsC2 dsC2 "A.B" "A" "B" symA [docC2A] docC2A docC2B
    (by decide) rfl rfl rfl rfl

/-- Claim C5, counterexample: with two candidates, `toggleBreakpoint` does
not return a disambiguation payload — it silently proceeds with the first
candidate and creates a breakpoint there. -/
theorem c5_counterexample :
    [symFooA, symFooB].length > 1
    ∧ (debugBreakpointAction .toggleBreakpoint (some "foo") none
        [symFooA, symFooB] [] [] []).1 = .added "a.ts" 1
    ∧ (debugBreakpointAction .toggleBreakpoint (some "foo") none
        [symFooA, symFooB] [] [] []).1 ≠ .multipleMatches [symFooA, symFooB] := by
  refine ⟨by decide, by decide, by decide⟩

/-- Claim C5, amended: with more than one candidate, `setBreakpoint` returns
the disambiguation payload listing all matches, while `toggleBreakpoint`
proceeds with the first candidate (removing or adding a breakpoint at its
location). -/
theorem c5_set_disambiguates_toggle_first (q : String) (hq : q.isEmpty = false)
    (s1 s2 : SymbolInformation) (rest allSymbols : List SymbolInformation)
    (filesFound : List String) (existing : List Breakpoint) :
    (debugBreakpointAction .setBreakpoint (some q) none (s1 :: s2 :: rest)
        allSymbols filesFound existing).1 = .multipleMatches (s1 :: s2 :: rest)
    ∧ ((debugBreakpointAction .toggleBreakpoint (some q) none (s1 :: s2 :: rest)
          allSymbols filesFound existing).1
        = .removed s1.location.uri s1.location.range.start.line
      ∨ (debugBreakpointAction .toggleBreakpoint (some q) none (s1 :: s2 :: rest)
          allSymbols filesFound existing).1
        = .added s1.location.uri s1.location.range.start.line) := by
  constructor
  · simp [debugBreakpointAction, hq]
  · simp only [debugBreakpointAction, hq, Bool.false_eq_true, if_false]
    simp only [applyBreakpointAt]
    cases hf : existing.find? (fun bp =>
        bp.uri == s1.location.uri && bp.line == s1.location.range.start.line) with
    | none => simp [hf]
    | some bp => simp [hf]

/-- Claim C5, witness: the amended statement evaluated on two `foo`
candidates. -/
theorem c5_witness :
    (debugBreakpointAction .setBreakpoint (some "foo") none [symFooA, symFooB]
        [] [] []).1 = .multipleMatches [symFooA, symFooB]
    ∧ ((debugBreakpointAction .toggleBreakpoint (some "foo") none
          [symFooA, symFooB] [] [] []).1
        = .removed symFooA.location.uri symFooA.location.range.start.line
      ∨ (debugBreakpointAction .toggleBreakpoint (some "foo") none
          [symFooA, symFooB] [] [] []).1
        = .added symFooA.location.uri symFooA.location.range.start.line) :=
  c5_set_disambiguates_toggle_first "foo" (by decide) symFooA symFooB [] [] [] []

/-- Claim C6, counterexample: with a similarly-named symbol `FooBar` in the
workspace, the definition tool's not-found response for `Foo` is exactly the
message payload with an empty definitions list — it carries no suggestion
list (unlike the debug tool, shown alongside). -/
theorem c6_counterexample :
    containsSub (lowerChars "Foo") (lowerChars symFooBar.name) = true
    ∧ findDefinitionBySymbol (fun _ => []) (fun _ => none) "Foo"
        = ⟨"Foo", some "Symbol \x27Foo\x27 not found in workspace", false, []⟩
    ∧ debugSuggestions [symFooBar] "Foo" = ["FooBar"] := by
  refine ⟨by decide, by decide, by decide⟩

/-- Claim C6, amended: on zero candidates the debug breakpoint actions
return a not-found payload with a non-empty suggestion list of at most 5
case-insensitive substring matches (when one exists), while the definition
tool returns only a not-found message with an empty definitions list and no
suggestions. -/
theorem c6_not_found_suggestions (action : BpAction) (q : String)
    (hq : q.isEmpty = false) (allSymbols : List SymbolInformation)
    (filesFound : List String) (existing : List Breakpoint)
    (s : SymbolInformation) (hs : s ∈ allSymbols)
    (hsub : containsSub (lowerChars q) (lowerChars s.name) = true)
    (ws : String → List SymbolInformation)
    (ds : String → Option (List DocumentSymbol))
    (hws : ws ((jsSplit q '.').headD "") = []) :
    (debugBreakpointAction action (some q) none [] allSymbols filesFound
        existing).1 = .notFound (debugSuggestions allSymbols q)
    ∧ debugSuggestions allSymbols q ≠ []
    ∧ (debugSuggestions allSymbols q).length ≤ 5
    ∧ findDefinitionBySymbol ws ds q
        = ⟨q, some ("Symbol \x27" ++ q ++ "\x27 not found in workspace"),
            false, []⟩ := by
  refine ⟨?_, ?_, ?_, ?_⟩
  · simp [debugBreakpointAction, hq]
  · have hmem : s ∈ allSymbols.filter
        (fun t => containsSub (lowerChars q) (lowerChars t.name)) :=
      List.mem_filter.mpr ⟨hs, hsub⟩
    have hfil := List.ne_nil_of_mem hmem
    simp only [debugSuggestions, ne_eq, List.map_eq_nil_iff]
    intro htake
    rcases List.take_eq_nil_iff.mp htake with h5 | h0
    · exact absurd h5 (by decide)
    · exact hfil h0
  · simp only [debugSuggestions, List.length_map]
    exact le_trans (List.length_take_le 5 _) (le_refl 5)
  · simp only [findDefinitionBySymbol, parseSymbolQuery]
    rw [hws]
    simp

/-- Claim C6, witness: the amended statement evaluated on a workspace whose
only symbol is `FooBar`, queried for `Foo`. -/
theorem c6_witness :
    (debugBreakpointAction .setBreakpoint (some "Foo") none [] [symFooBar]
        [] []).1 = .notFound (debugSuggestions [symFooBar] "Foo")
    ∧ debugSuggestions [symFooBar] "Foo" ≠ []
    ∧ (debugSuggestions [symFooBar] "Foo").length ≤ 5
    ∧ findDefinitionBySymbol (fun _ => []) (fun _ => none) "Foo"
        = ⟨"Foo", some ("Symbol \x27" ++ "Foo" ++ "\x27 not found in workspace"),
            false, []⟩ :=
  c6_not_found_suggestions .setBreakpoint "Foo" (by decide) [symFooBar] [] []
    symFooBar (by decide) (by decide) (fun _ => []) (fun _ => none) rfl

/-- Claim C7: the `POST /tool` flow answers exactly 500 on a body-parse
throw, 404 when no registered tool bears the requested name, 400 on argument
validation failure (with the handler never invoked), 200 with a result when
the handler returns, and 500 with an error when the handler throws — and
every response status is one of these four, so a handler exception never
escapes the bridge. -/
theorem c7_post_tool_contract (tools : List ToolModel)
    (body : Except String PostBody) :
    (∀ e, body = .error e →
      handlePostTool tools body = (⟨500, .error e⟩, false))
    ∧ (∀ pb, body = .ok pb →
        tools.find? (fun u => some u.name == pb.tool) = none →
        handlePostTool tools body
          = (⟨404, .error ("Unknown tool: " ++ pb.tool.getD "undefined")⟩, false))
    ∧ (∀ pb t err, body = .ok pb →
        tools.find? (fun u => some u.name == pb.tool) = some t →
        validateToolArguments (pb.args.getD []) t.inputSchema = some err →
        handlePostTool tools body = (⟨400, .error err⟩, false))
    ∧ (∀ pb t v, body = .ok pb →
        tools.find? (fun u => some u.name == pb.tool) = some t →
        validateToolArguments (pb.args.getD []) t.inputSchema = none →
        t.handler (pb.args.getD []) = .ok v →
        handlePostTool tools body = (⟨200, .result v⟩, true))
    ∧ (∀ pb t e, body = .ok pb →
        tools.find? (fun u => some u.name == pb.tool) = some t →
        validateToolArguments (pb.args.getD []) t.inputSchema = none →
        t.handler (pb.args.getD []) = .error e →
        handlePostTool tools body = (⟨500, .error e⟩, true))
    ∧ ((handlePostTool tools body).1.status = 200
        ∨ (handlePostTool tools body).1.status = 400
        ∨ (handlePostTool tools body).1.status = 404
        ∨ (handlePostTool tools body).1.status = 500) := by
  refine ⟨?_, ?_, ?_, ?_, ?_, ?_⟩
  · rintro e rfl
    rfl
  · rintro pb rfl hfind
    simp [handlePostTool, hfind]
  · rintro pb t err rfl hfind hval
    simp [handlePostTool, hfind, hval]
  · rintro pb t v rfl hfind hval hh
    simp [handlePostTool, hfind, hval, hh]
  · rintro pb t e rfl hfind hval hh
    simp [handlePostTool, hfind, hval, hh]
  · cases body with
    | error e => simp [handlePostTool]
    | ok pb =>
      cases hfind : tools.find? (fun u => some u.name == pb.tool) with
      | none => simp [handlePostTool, hfind]
      | some t =>
        cases hval : validateToolArguments (pb.args.getD []) t.inputSchema with
        | some err => simp [handlePostTool, hfind, hval]
        | none =>
          cases hh : t.handler (pb.args.getD []) with
          | ok v => simp [handlePostTool, hfind, hval, hh]
          | error e => simp [handlePostTool, hfind, hval, hh]

/-- Claim C7, witness: the 400 branch on a missing required field (handler
not invoked), and the 200 branch on valid arguments. -/
theorem c7_witness :
    handlePostTool [toolEcho] (.ok ⟨some "echo", some []⟩)
      = (⟨400, .error "Missing required field: x"⟩, false)
    ∧ handlePostTool [toolEcho] (.ok ⟨some "echo", some [("x", .num 3)]⟩)
      = (⟨200, .result (.obj [("x", .num 3)])⟩, true) :=
  ⟨(c7_post_tool_contract [toolEcho] (.ok ⟨some "echo", some []⟩)).2.2.1
      ⟨some "echo", some []⟩ toolEcho "Missing required field: x" rfl rfl rfl,
   (c7_post_tool_contract [toolEcho]
        (.ok ⟨some "echo", some [("x", .num 3)]⟩)).2.2.2.1
      ⟨some "echo", some [("x", .num 3)]⟩ toolEcho (.obj [("x", .num 3)])
      rfl rfl rfl rfl⟩

/-- Claim C8: for every raw provider result, the compact positional span
tuples and the detailed nested-object spans decode to exactly the same uri
and line/character values, both for definitions (either host shape) and for
references. -/
theorem c8_compact_detailed_agree (defs : List DefinitionLoc)
    (refs : List Location) :
    findDefinitionByPositionCompact defs
      = (findDefinitionByPositionDetailed defs).map spanTuple
    ∧ findReferencesByPositionCompact refs
      = (findReferencesByPositionDetailed refs).map spanTuple := by
  constructor
  · simp only [findDefinitionByPositionCompact, findDefinitionByPositionDetailed,
      List.map_map]
    have hfun : compactOfDefinitionLoc = spanTuple ∘ detailedOfDefinitionLoc := by
      funext d
      cases d <;> rfl
    rw [hfun]
  · simp only [findReferencesByPositionCompact, findReferencesByPositionDetailed,
      List.map_map]
    rfl

/-- Claim C9: `debug_getOutput` for an active session with no recorded
entries returns the success payload with an empty output list and total 0 —
not an error payload. -/
theorem c9_empty_buffer_ok (s : DebugSession) (entries : List OutputEntry)
    (category : Option String) (limit : Nat) (textFilter : Option String)
    (h : ∀ e ∈ entries, e.sessionId ≠ s.id) :
    debugGetOutput (some s) entries category limit textFilter
      = .ok [] 0 s.name := by
  have hfil : entries.filter (fun e => e.sessionId == s.id) = [] := by
    rw [List.filter_eq_nil_iff]
    intro e he
    simpa using h e he
  simp [debugGetOutput, getOutputs, hfil]

/-- Claim C9, witness: a session with no entries of its own in the buffer. -/
theorem c9_witness :
    debugGetOutput (some ⟨"s1", "Run", "node"⟩) [⟨5, "other", "stdout", "hi"⟩]
        none 100 none = .ok [] 0 "Run" :=
  c9_empty_buffer_ok ⟨"s1", "Run", "node"⟩ [⟨5, "other", "stdout", "hi"⟩]
    none 100 none (by decide)

/-- Per-line inversion for the fallback scanner: a `Variable` symbol can only
come from a zero-indentation assignment whose name is longer than one
character and equal to its own uppercase form, and a `Function`/`Method`
symbol only from a `def` line indented at most 4. -/
theorem mem_extractLineSymbols (i : Nat) (line : String) (s : BasicSymbol)
    (hs : s ∈ extractLineSymbols i line) :
    (s.kind = "Variable" →
      1 < s.name.length ∧ upperString s.name = s.name
      ∧ line.length - (trimChars line.toList).length = 0
      ∧ parseAssignment (trimChars line.toList) = some s.name)
    ∧ ((s.kind = "Function" ∨ s.kind = "Method") →
      line.length - (trimChars line.toList).length ≤ 4
      ∧ parseFuncDef (trimChars line.toList) = some s.name) := by
  simp only [extractLineSymbols] at hs
  split at hs
  · simp at hs
  · rcases List.mem_append.mp hs with hcf | hvar
    · rcases List.mem_append.mp hcf with hcl | hfn
      · rcases hcls : parseClassDef (trimChars line.toList) with _ | name
        · rw [hcls] at hcl
          simp at hcl
        · rw [hcls] at hcl
          simp only [List.mem_singleton] at hcl
          subst hcl
          simp
      · split at hfn
        · rename_i member heqf
          split at hfn
          · rename_i hg
            simp only [List.mem_singleton] at hfn
            subst hfn
            constructor
            · intro hk
              rcases hb : (line.length - (trimChars line.toList).length == 0) with
                  _ | _ <;> simp only [hb] at hk <;> simp at hk
            · intro _
              refine ⟨?_, heqf⟩
              simp only [Bool.or_eq_true, beq_iff_eq, decide_eq_true_eq] at hg
              omega
          · simp at hfn
        · simp at hfn
    · split at hvar
      · rename_i htop
        split at hvar
        · rename_i varName heqa
          split at hvar
          · rename_i hg
            simp only [List.mem_singleton] at hvar
            subst hvar
            constructor
            · intro _
              simp only [Bool.and_eq_true, beq_iff_eq, decide_eq_true_eq] at hg
              refine ⟨hg.2, hg.1.symm, ?_, heqa⟩
              simpa using htop
            · intro hk
              simp at hk
          · simp at hvar
        · simp at hvar
      · simp at hvar

/-- Claim C10: every `Variable` symbol emitted by the fallback extractor for
a Python document comes from a zero-indentation assignment line whose name
is longer than one character and equals its own uppercase form, and every
`Function`/`Method` symbol comes from a `def` line indented at most 4
characters. -/
theorem c10_scanner_filters (languageId text : String) (syms : List BasicSymbol)
    (s : BasicSymbol) (hext : tryBasicSymbolExtraction languageId text = some syms)
    (hs : s ∈ syms) :
    (s.kind = "Variable" →
      1 < s.name.length ∧ upperString s.name = s.name
      ∧ ∃ line ∈ jsSplit text '\n',
          line.length - (trimChars line.toList).length = 0
          ∧ parseAssignment (trimChars line.toList) = some s.name)
    ∧ ((s.kind = "Function" ∨ s.kind = "Method") →
      ∃ line ∈ jsSplit text '\n',
          line.length - (trimChars line.toList).length ≤ 4
          ∧ parseFuncDef (trimChars line.toList) = some s.name) := by
  simp only [tryBasicSymbolExtraction] at hext
  split at hext
  · split at hext
    · obtain rfl : _ = syms := Option.some.inj hext
      obtain ⟨p, hpmem, hsline⟩ := List.mem_flatMap.mp hs
      have hline : p.2 ∈ jsSplit text '\n' := by
        have := List.mem_map_of_mem Prod.snd hpmem
        rwa [List.enum_map_snd] at this
      have hprops := mem_extractLineSymbols p.1 p.2 s hsline
      constructor
      · intro hk
        obtain ⟨h1, h2, h3, h4⟩ := hprops.1 hk
        exact ⟨h1, h2, p.2, hline, h3, h4⟩
      · intro hk
        obtain ⟨h1, h2⟩ := hprops.2 hk
        exact ⟨p.2, hline, h1, h2⟩
    · exact absurd hext (by simp)
  · exact absurd hext (by simp)

/-- Claim C10, witness: the statement evaluated on the two-line document
`MAX = 9` / `def f(x):`, at its emitted `Variable` symbol. -/
theorem c10_witness :
    (varMAX.kind = "Variable" →
      1 < varMAX.name.length ∧ upperString varMAX.name = varMAX.name
      ∧ ∃ line ∈ jsSplit "MAX = 9\ndef f(x):" '\n',
          line.length - (trimChars line.toList).length = 0
          ∧ parseAssignment (trimChars line.toList) = some varMAX.name)
    ∧ ((varMAX.kind = "Function" ∨ varMAX.kind = "Method") →
      ∃ line ∈ jsSplit "MAX = 9\ndef f(x):" '\n',
          line.length - (trimChars line.toList).length ≤ 4
          ∧ parseFuncDef (trimChars line.toList) = some varMAX.name) :=
  c10_scanner_filters "python" "MAX = 9\ndef f(x):" [varMAX, funF] varMAX
    (by decide) (by decide)

end VSCodeMCP
